import Mathlib

/-!
Shallow embedding of the Planico weekly-planner core:
`src/lib/conflict-checker.ts`, `src/lib/utils.ts` and
`src/hooks/useScheduleBlocks.ts`.

Instants are modelled as whole minutes since a local epoch that falls on a
Thursday at 00:00, mirroring the JavaScript epoch read in a fixed-offset
time zone (the app pins display to one zone and stores no sub-minute
times on the scheduling path).  `Date` component accessors (`getHours`,
`getMinutes`, `getDay`, the year/month/date triple) are derived from that
minute count; `/` and `%` on `Int` are Euclidean, which matches how local
calendar components behave for instants before the epoch.
-/

namespace Planico

/-- `Date.prototype.getMinutes()`: minutes past the hour of `t`. -/
def minuteOf (t : Int) : Int := t % 60

/-- `Date.prototype.getHours()`: hour of day (0–23) of `t`. -/
def hourOf (t : Int) : Int := (t / 60) % 24

/-- `Date.prototype.getDay()`: day of week, 0 = Sunday.  The epoch day is a
Thursday, hence the offset 4. -/
def dayOfWeek (t : Int) : Int := (t / 1440 + 4) % 7

/-- Index of the calendar day containing `t`.  In a fixed-offset zone two
instants have equal `(getFullYear, getMonth, getDate)` triples exactly when
they have the same calendar-day index. -/
def calendarDay (t : Int) : Int := t / 1440

/-- Minutes past midnight of the calendar day of `t`. -/
def timeOfDay (t : Int) : Int := t % 1440

/-- `d.setHours(h, 0, 0, 0)`: same calendar day as `t`, hour `h`, with
minutes (and finer components) zeroed. -/
def setHoursZero (t h : Int) : Int := (t / 1440) * 1440 + h * 60

/-- `getWeekStart` (src/lib/utils.ts):
`const day = d.getDay(); const diff = d.getDate() - day; return new Date(d.setDate(diff))`.
`setDate(getDate() - day)` moves the date back `day` days (JS normalises a
non-positive day-of-month into the previous month), i.e. subtracts
`getDay()` whole days; the time-of-day components are left untouched. -/
def getWeekStart (t : Int) : Int := t - dayOfWeek t * 1440

/-- `isSameDay` (src/lib/utils.ts): equality of the year/month/date triple,
i.e. of the calendar-day index. -/
def isSameDay (t1 t2 : Int) : Bool := calendarDay t1 == calendarDay t2

/-- `roundToTimeSlot` (src/lib/utils.ts): with `m = getMinutes()`,
`roundedMinutes = m < 15 ? 0 : m < 45 ? 30 : 0` and
`hourAdjustment = m >= 45 ? 1 : 0`; the code then does
`setMinutes(roundedMinutes)` (here `t - m + roundedMinutes`), zeroes
seconds/milliseconds (a no-op at minute granularity) and finally
`setHours(getHours() + hourAdjustment)` (adds 60 minutes, JS rolling
23→0 into the next day). -/
def roundToTimeSlot (t : Int) : Int :=
  t - t % 60 + (if t % 60 < 15 then 0 else if t % 60 < 45 then 30 else 0) +
    (if t % 60 ≥ 45 then 1 else 0) * 60

/-- `Category` (src/lib/types.ts). -/
structure Category where
  id : String
  name : String
  color : String
  deriving Repr, DecidableEq

/-- `ScheduleBlock` (src/lib/types.ts).  `startTime`/`endTime`/`createdAt`/
`updatedAt` are instants in minutes. -/
structure ScheduleBlock where
  id : String
  title : String
  description : Option String
  startTime : Int
  endTime : Int
  categoryId : String
  category : Category
  createdAt : Int
  updatedAt : Int
  deriving Repr, DecidableEq

/-- The `{ startTime: Date; endTime: Date }` candidate passed to the
conflict checker. -/
structure CandidateInterval where
  startTime : Int
  endTime : Int
  deriving Repr, DecidableEq

/-- `blocksOverlap` (src/lib/utils.ts): strict interval overlap, restricted
to blocks whose start instants share a calendar day. -/
def blocksOverlap (b1 b2 : ScheduleBlock) : Bool :=
  decide (b1.startTime < b2.endTime) && decide (b1.endTime > b2.startTime) &&
    isSameDay b1.startTime b2.startTime

/-- date-fns `areIntervalsOverlapping` with `{ inclusive: false }`: each
interval's endpoints are sorted, then the intervals overlap iff each one
starts strictly before the other ends (touching endpoints do not count). -/
def areIntervalsOverlapping (aStart aEnd bStart bEnd : Int) : Bool :=
  decide (min aStart aEnd < max bStart bEnd) && decide (min bStart bEnd < max aStart aEnd)

/-- Two-digit zero padding used by date-fns `format` fields. -/
def pad2 (n : Int) : String := if n < 10 then "0" ++ toString n else toString n

/-- date-fns `format(t, "HH:mm")`. -/
def formatHHmm (t : Int) : String := pad2 (hourOf t) ++ ":" ++ pad2 (minuteOf t)

/-- `ConflictResult` (src/lib/conflict-checker.ts). -/
structure ConflictResult where
  hasConflict : Bool
  conflictingBlocks : List ScheduleBlock
  suggestions : List String
  deriving Repr, DecidableEq

namespace ConflictChecker

/-- The text pushed when `conflictStart > newBlock.startTime`. -/
def beforeSuggestion (conflict : ScheduleBlock) : String :=
  "Mover antes de \"" ++ conflict.title ++ "\" (terminar a las " ++
    formatHHmm conflict.startTime ++ ")"

/-- The text pushed when `conflictEnd < newBlock.endTime`. -/
def afterSuggestion (conflict : ScheduleBlock) : String :=
  "Mover después de \"" ++ conflict.title ++ "\" (comenzar a las " ++
    formatHHmm conflict.endTime ++ ")"

/-- The two pushes done for one conflicting block inside the `forEach` of
`generateSuggestions`, in source order. -/
def suggestionsFor (newBlock : CandidateInterval) (conflict : ScheduleBlock) : List String :=
  (if newBlock.startTime < conflict.startTime then [beforeSuggestion conflict] else []) ++
    (if conflict.endTime < newBlock.endTime then [afterSuggestion conflict] else [])

/-- Accumulator form of `[...new Set(xs)]`: keep the first occurrence of
each element, preserving order. -/
def dedupFirstAux : List String → List String → List String
  | acc, [] => acc
  | acc, s :: rest => if s ∈ acc then dedupFirstAux acc rest else dedupFirstAux (acc ++ [s]) rest

/-- `[...new Set(xs)]`: JS `Set` iteration is in first-insertion order. -/
def dedupFirst (l : List String) : List String := dedupFirstAux [] l

/-- `ConflictChecker.generateSuggestions` (src/lib/conflict-checker.ts):
walk the conflicting blocks in order, pushing the before/after texts, then
remove duplicates with `[...new Set(suggestions)]`. -/
def generateSuggestions (newBlock : CandidateInterval)
    (conflictingBlocks : List ScheduleBlock) : List String :=
  dedupFirst (conflictingBlocks.foldl (fun acc conflict => acc ++ suggestionsFor newBlock conflict) [])

/-- The filter callback of `checkForConflicts`: skip the block being edited
(`excludeBlockId` present and equal), otherwise test overlap via date-fns.
(`none` models an absent `excludeBlockId`; the JS truthiness test on the
string coincides with presence at every call site.) -/
def conflictPredicate (newBlock : CandidateInterval) (excludeBlockId : Option String)
    (block : ScheduleBlock) : Bool :=
  match excludeBlockId with
  | some ex =>
      if block.id == ex then false
      else areIntervalsOverlapping newBlock.startTime newBlock.endTime block.startTime block.endTime
  | none => areIntervalsOverlapping newBlock.startTime newBlock.endTime block.startTime block.endTime

/-- `ConflictChecker.checkForConflicts` (src/lib/conflict-checker.ts). -/
def checkForConflicts (newBlock : CandidateInterval) (existingBlocks : List ScheduleBlock)
    (excludeBlockId : Option String := none) : ConflictResult :=
  let conflictingBlocks := existingBlocks.filter (conflictPredicate newBlock excludeBlockId)
  { hasConflict := decide (0 < conflictingBlocks.length)
    conflictingBlocks := conflictingBlocks
    suggestions :=
      if decide (0 < conflictingBlocks.length) then generateSuggestions newBlock conflictingBlocks
      else [] }

/-- Ascending-start comparison used by
`[...existingBlocks].sort((a, b) => a.startTime - b.startTime)`. -/
def startLE (a b : ScheduleBlock) : Prop := a.startTime ≤ b.startTime

instance : DecidableRel startLE :=
  fun a b => inferInstanceAs (Decidable (a.startTime ≤ b.startTime))

instance : IsTotal ScheduleBlock startLE := ⟨fun a b => Int.le_total a.startTime b.startTime⟩

instance : IsTrans ScheduleBlock startLE := ⟨fun _ _ _ h1 h2 => le_trans h1 h2⟩

/-- The clamp at the top of `findNextAvailableSlot`:
`if (currentTime.getHours() < workingHours.start) currentTime.setHours(workingHours.start, 0, 0, 0)`. -/
def clampToWorkingStart (preferredStart workingStart : Int) : Int :=
  if hourOf preferredStart < workingStart then setHoursZero preferredStart workingStart
  else preferredStart

/-- The `for (const block of sortedBlocks)` loop of `findNextAvailableSlot`,
followed (once the list is exhausted) by the trailing
`proposedEnd.getHours() <= workingHours.end` check. -/
def findLoop (duration workingEnd : Int) : Int → List ScheduleBlock → Option Int
  | currentTime, [] =>
      if hourOf (currentTime + duration) ≤ workingEnd then some currentTime else none
  | currentTime, block :: rest =>
      if currentTime + duration ≤ block.startTime then some currentTime
      else findLoop duration workingEnd block.endTime rest

/-- `ConflictChecker.findNextAvailableSlot` (src/lib/conflict-checker.ts).
`duration` is in minutes (the source multiplies by 60000 to get ms). -/
def findNextAvailableSlot (duration preferredStart : Int)
    (existingBlocks : List ScheduleBlock) (workingStart workingEnd : Int) : Option Int :=
  findLoop duration workingEnd (clampToWorkingStart preferredStart workingStart)
    (List.insertionSort startLE existingBlocks)

end ConflictChecker

/-- The candidate interval `[t, t + d)` strictly overlaps block `b` — the
same rule `checkForConflicts` applies to well-formed intervals. -/
def overlapsBlock (t d : Int) (b : ScheduleBlock) : Prop :=
  t < b.endTime ∧ b.startTime < t + d

instance (t d : Int) (b : ScheduleBlock) : Decidable (overlapsBlock t d b) :=
  inferInstanceAs (Decidable (_ ∧ _))

/-- Two blocks occupy disjoint time intervals. -/
def disjointBlocks (a b : ScheduleBlock) : Prop :=
  a.endTime ≤ b.startTime ∨ b.endTime ≤ a.startTime

instance (a b : ScheduleBlock) : Decidable (disjointBlocks a b) :=
  inferInstanceAs (Decidable (_ ∨ _))

/-! Concrete fixtures used by witnesses and counterexamples. -/

/-- A sample category. -/
def workCategory : Category := ⟨"cat1", "Trabajo", "#3B82F6"⟩

/-- "Meeting", 09:30–10:30 on day 0 (the block of the spec's worked
example). -/
def meetingBlock : ScheduleBlock :=
  ⟨"blk1", "Meeting", none, 570, 630, "cat1", workCategory, 0, 0⟩

/-- A block filling 09:00–10:00 on day 0. -/
def earlyBlock : ScheduleBlock :=
  ⟨"blk2", "Temprano", none, 540, 600, "cat1", workCategory, 0, 0⟩

/-- A block at 00:00–00:30 of day 1 (just after midnight). -/
def afterMidnightBlock : ScheduleBlock :=
  ⟨"blk3", "Madrugada", none, 1440, 1470, "cat1", workCategory, 0, 0⟩

/-- A block at 01:00–02:00 of day 1. -/
def dayOneBlock : ScheduleBlock :=
  ⟨"blk4", "Otro", none, 1500, 1560, "cat1", workCategory, 0, 0⟩

namespace ConflictChecker

/-- Unfolding lemma: the conflicting blocks are the filter of the existing
blocks by the overlap predicate. -/
theorem checkForConflicts_conflictingBlocks (newBlock : CandidateInterval)
    (existingBlocks : List ScheduleBlock) (excludeBlockId : Option String) :
    (checkForConflicts newBlock existingBlocks excludeBlockId).conflictingBlocks =
      existingBlocks.filter (conflictPredicate newBlock excludeBlockId) := rfl

/-- Unfolding lemma for the `hasConflict` field. -/
theorem checkForConflicts_hasConflict (newBlock : CandidateInterval)
    (existingBlocks : List ScheduleBlock) (excludeBlockId : Option String) :
    (checkForConflicts newBlock existingBlocks excludeBlockId).hasConflict =
      decide (0 < (checkForConflicts newBlock existingBlocks excludeBlockId).conflictingBlocks.length) := rfl

/-- Unfolding lemma for the `suggestions` field. -/
theorem checkForConflicts_suggestions (newBlock : CandidateInterval)
    (existingBlocks : List ScheduleBlock) (excludeBlockId : Option String) :
    (checkForConflicts newBlock existingBlocks excludeBlockId).suggestions =
      if (checkForConflicts newBlock existingBlocks excludeBlockId).hasConflict then
        generateSuggestions newBlock
          (checkForConflicts newBlock existingBlocks excludeBlockId).conflictingBlocks
      else [] := rfl

end ConflictChecker

/-- On well-formed intervals the date-fns test is exactly the strict
half-open overlap rule. -/
theorem areIntervalsOverlapping_eq_true_iff (aS aE bS bE : Int)
    (h1 : aS ≤ aE) (h2 : bS ≤ bE) :
    areIntervalsOverlapping aS aE bS bE = true ↔ (aS < bE ∧ bS < aE) := by
  simp [areIntervalsOverlapping, min_eq_left h1, max_eq_right h2, min_eq_left h2,
    max_eq_right h1]

/-- C8: `roundToTimeSlot` is idempotent: rounding an already-rounded
instant (minute 0 or 30) changes nothing; the first rounding maps
minute < 15 to :00, 15 ≤ minute < 45 to :30 and minute ≥ 45 to :00 of the
next hour. -/
theorem roundToTimeSlot_idempotent (t : Int) :
    roundToTimeSlot (roundToTimeSlot t) = roundToTimeSlot t := by
  unfold roundToTimeSlot
  split_ifs <;> omega

/-- C6 counterexample: for the instant 01:30 of a Monday (day 4 of the
epoch week, `t = 5850`), `getWeekStart` lands on the same week's Sunday at
01:30, not 00:00 — the hour and minute components are not zeroed. -/
theorem getWeekStart_counterexample :
    getWeekStart 5850 = 4410 ∧ dayOfWeek 4410 = 0 ∧
      hourOf (getWeekStart 5850) = 1 ∧ minuteOf (getWeekStart 5850) = 30 ∧
      ¬ (hourOf (getWeekStart 5850) = 0 ∧ minuteOf (getWeekStart 5850) = 0) := by
  decide

/-- C6 (amended): `getWeekStart` returns an instant on the Sunday of the
7-day window containing the input (day-of-week 0, at most 6 days earlier,
never later), but preserves the input's time of day instead of
normalising it to 00:00. -/
theorem getWeekStart_sunday_same_time (t : Int) :
    dayOfWeek (getWeekStart t) = 0 ∧ getWeekStart t ≤ t ∧
      t - getWeekStart t < 7 * 1440 ∧ timeOfDay (getWeekStart t) = timeOfDay t := by
  unfold getWeekStart dayOfWeek timeOfDay
  omega

/-- C10: `hasConflict` is true exactly when the conflicting-blocks list is
non-empty, and when there is no conflict the suggestions list is empty. -/
theorem checkForConflicts_result_consistent (newBlock : CandidateInterval)
    (existingBlocks : List ScheduleBlock) (excludeBlockId : Option String) :
    ((ConflictChecker.checkForConflicts newBlock existingBlocks excludeBlockId).hasConflict = true ↔
      (ConflictChecker.checkForConflicts newBlock existingBlocks excludeBlockId).conflictingBlocks ≠ []) ∧
    ((ConflictChecker.checkForConflicts newBlock existingBlocks excludeBlockId).hasConflict = false →
      (ConflictChecker.checkForConflicts newBlock existingBlocks excludeBlockId).suggestions = []) := by
  constructor
  · rw [ConflictChecker.checkForConflicts_hasConflict]
    simp [List.length_pos]
  · intro h
    rw [ConflictChecker.checkForConflicts_suggestions, h]
    simp

/-- Witness for C10: with no existing blocks there is no conflict and the
suggestion list is empty. -/
theorem checkForConflicts_result_consistent_witness :
    (ConflictChecker.checkForConflicts ⟨540, 600⟩ [] none).suggestions = [] :=
  (checkForConflicts_result_consistent ⟨540, 600⟩ [] none).2 (by decide)

/-- C1: for a well-formed candidate and a well-formed block on the same
calendar day, `checkForConflicts` (no exclusion) reports the block as
conflicting iff `candidate.start < block.end` and
`candidate.end > block.start`; touching endpoints are therefore never
conflicts. -/
theorem checkForConflicts_overlap_iff (newBlock : CandidateInterval)
    (existingBlocks : List ScheduleBlock) (b : ScheduleBlock)
    (hmem : b ∈ existingBlocks)
    (hcand : newBlock.startTime < newBlock.endTime)
    (hblock : b.startTime < b.endTime)
    (hday : isSameDay b.startTime newBlock.startTime = true) :
    b ∈ (ConflictChecker.checkForConflicts newBlock existingBlocks none).conflictingBlocks ↔
      (newBlock.startTime < b.endTime ∧ newBlock.endTime > b.startTime) := by
  rw [ConflictChecker.checkForConflicts_conflictingBlocks, List.mem_filter]
  simp only [ConflictChecker.conflictPredicate]
  rw [areIntervalsOverlapping_eq_true_iff _ _ _ _ hcand.le hblock.le]
  constructor
  · rintro ⟨-, hov1, hov2⟩
    exact ⟨hov1, hov2⟩
  · rintro ⟨hov1, hov2⟩
    exact ⟨hmem, hov1, hov2⟩

/-- Witness for C1 at the spec's worked example: candidate 09:00–10:00
against "Meeting" 09:30–10:30 on the same day is reported. -/
theorem checkForConflicts_overlap_iff_witness :
    meetingBlock ∈
      (ConflictChecker.checkForConflicts ⟨540, 600⟩ [meetingBlock] none).conflictingBlocks :=
  (checkForConflicts_overlap_iff ⟨540, 600⟩ [meetingBlock] meetingBlock (by decide)
    (by decide) (by decide) (by decide)).mpr ⟨by decide, by decide⟩

/-- C2 counterexample: a candidate crossing midnight (23:00 of day 0 to
01:00 of day 1) is flagged against a block that starts on day 1, even
though the two start instants lie on different calendar days —
`checkForConflicts` itself applies no same-day filter. -/
theorem checkForConflicts_crossDay_counterexample :
    afterMidnightBlock ∈
      (ConflictChecker.checkForConflicts ⟨1380, 1500⟩ [afterMidnightBlock] none).conflictingBlocks ∧
    isSameDay afterMidnightBlock.startTime 1380 = false := by
  decide

/-- C2 (amended): `checkForConflicts` compares raw intervals with no
same-calendar-day restriction (the restriction lives only in the separate
`blocksOverlap` utility), so a candidate crossing midnight can be flagged
against a block of another day; but whenever the candidate interval and
the block each lie within a single calendar day, a block starting on a
different calendar day than the candidate is never reported. -/
theorem checkForConflicts_crossDay_excluded (newBlock : CandidateInterval)
    (existingBlocks : List ScheduleBlock) (b : ScheduleBlock)
    (hcand : newBlock.startTime ≤ newBlock.endTime)
    (hcand1 : newBlock.endTime ≤ (newBlock.startTime / 1440 + 1) * 1440)
    (hb : b.startTime ≤ b.endTime)
    (hb1 : b.endTime ≤ (b.startTime / 1440 + 1) * 1440)
    (hday : isSameDay b.startTime newBlock.startTime = false) :
    b ∉ (ConflictChecker.checkForConflicts newBlock existingBlocks none).conflictingBlocks := by
  rw [ConflictChecker.checkForConflicts_conflictingBlocks]
  intro hmem
  rw [List.mem_filter] at hmem
  obtain ⟨-, hov⟩ := hmem
  simp only [ConflictChecker.conflictPredicate] at hov
  rw [areIntervalsOverlapping_eq_true_iff _ _ _ _ hcand hb] at hov
  simp only [isSameDay, calendarDay, beq_eq_false_iff_ne, ne_eq] at hday
  omega

/-- Witness for C2 (amended): a day-0 candidate is never flagged against a
day-1 block when both stay within their own day. -/
theorem checkForConflicts_crossDay_excluded_witness :
    dayOneBlock ∉
      (ConflictChecker.checkForConflicts ⟨600, 660⟩ [dayOneBlock] none).conflictingBlocks :=
  checkForConflicts_crossDay_excluded ⟨600, 660⟩ [dayOneBlock] dayOneBlock (by decide)
    (by decide) (by decide) (by decide) (by decide)

/-- An element is in the deduplicated output iff it is in the accumulator
or in the remaining input. -/
theorem mem_dedupFirstAux (l acc : List String) (s : String) :
    s ∈ ConflictChecker.dedupFirstAux acc l ↔ s ∈ acc ∨ s ∈ l := by
  induction l generalizing acc with
  | nil => simp [ConflictChecker.dedupFirstAux]
  | cons a rest ih =>
    simp only [ConflictChecker.dedupFirstAux]
    split_ifs with h
    · rw [ih]
      simp only [List.mem_cons]
      constructor
      · rintro (hs | hs)
        · exact Or.inl hs
        · exact Or.inr (Or.inr hs)
      · rintro (hs | rfl | hs)
        · exact Or.inl hs
        · exact Or.inl h
        · exact Or.inr hs
    · rw [ih]
      simp [List.mem_append, or_assoc]

/-- Deduplication starting from a duplicate-free accumulator yields a
duplicate-free list. -/
theorem nodup_dedupFirstAux (l acc : List String) (hacc : acc.Nodup) :
    (ConflictChecker.dedupFirstAux acc l).Nodup := by
  induction l generalizing acc with
  | nil => exact hacc
  | cons a rest ih =>
    simp only [ConflictChecker.dedupFirstAux]
    split_ifs with h
    · exact ih acc hacc
    · exact ih _ (by simp [List.nodup_append, hacc, h])

/-- The per-block `push` loop accumulates exactly the concatenation of the
per-block suggestion lists, in input order. -/
theorem foldl_suggestionsFor_eq (newBlock : CandidateInterval) (l : List ScheduleBlock)
    (acc : List String) :
    l.foldl (fun acc conflict => acc ++ ConflictChecker.suggestionsFor newBlock conflict) acc =
      acc ++ (l.map (ConflictChecker.suggestionsFor newBlock)).flatten := by
  induction l generalizing acc with
  | nil => simp
  | cons c rest ih => simp [ih, List.append_assoc]

/-- Membership in the per-block suggestion pair. -/
theorem mem_suggestionsFor (newBlock : CandidateInterval) (c : ScheduleBlock) (s : String) :
    s ∈ ConflictChecker.suggestionsFor newBlock c ↔
      (newBlock.startTime < c.startTime ∧ s = ConflictChecker.beforeSuggestion c) ∨
        (c.endTime < newBlock.endTime ∧ s = ConflictChecker.afterSuggestion c) := by
  unfold ConflictChecker.suggestionsFor
  split_ifs with h1 h2 <;> simp_all

/-- C7: a text is suggested iff some conflicting block emits it ("place
before" exactly when `conflict.start > candidate.start`, "place after"
exactly when `conflict.end < candidate.end`); the output never contains
duplicates; and on the spec's worked example — candidate 09:00–10:00
against "Meeting" 09:30–10:30 — exactly the single "before" suggestion is
produced, with the text "Mover antes de "Meeting" (terminar a las 09:30)". -/
theorem generateSuggestions_spec :
    (∀ (newBlock : CandidateInterval) (conflicts : List ScheduleBlock) (s : String),
      s ∈ ConflictChecker.generateSuggestions newBlock conflicts ↔
        ∃ c ∈ conflicts,
          (newBlock.startTime < c.startTime ∧ s = ConflictChecker.beforeSuggestion c) ∨
            (c.endTime < newBlock.endTime ∧ s = ConflictChecker.afterSuggestion c)) ∧
    (∀ (newBlock : CandidateInterval) (conflicts : List ScheduleBlock),
      (ConflictChecker.generateSuggestions newBlock conflicts).Nodup) ∧
    ConflictChecker.generateSuggestions ⟨540, 600⟩ [meetingBlock] =
      [ConflictChecker.beforeSuggestion meetingBlock] ∧
    ConflictChecker.beforeSuggestion meetingBlock =
      "Mover antes de \"Meeting\" (terminar a las 09:30)" := by
  refine ⟨?_, ?_, ?_, ?_⟩
  · intro nb conflicts s
    unfold ConflictChecker.generateSuggestions ConflictChecker.dedupFirst
    rw [mem_dedupFirstAux, foldl_suggestionsFor_eq]
    simp only [List.not_mem_nil, false_or, List.nil_append, List.mem_flatten, List.mem_map]
    constructor
    · rintro ⟨l, ⟨c, hc, rfl⟩, hs⟩
      exact ⟨c, hc, (mem_suggestionsFor nb c s).mp hs⟩
    · rintro ⟨c, hc, h⟩
      exact ⟨_, ⟨c, hc, rfl⟩, (mem_suggestionsFor nb c s).mpr h⟩
  · intro nb conflicts
    exact nodup_dedupFirstAux _ _ List.nodup_nil
  · rfl
  · rfl

/-- A start-sorted list of well-formed, pairwise-disjoint blocks is an
end-before-start chain. -/
theorem sorted_disjoint_chain (l : List ScheduleBlock)
    (hsort : l.Sorted ConflictChecker.startLE) (hdisj : l.Pairwise disjointBlocks)
    (hwf : ∀ b ∈ l, b.startTime < b.endTime) :
    l.Pairwise (fun a b => a.endTime ≤ b.startTime) := by
  refine List.Pairwise.imp_of_mem ?_ (hsort.and hdisj)
  intro a b _ hb h
  obtain ⟨hle, hd | hd⟩ := h
  · exact hd
  · have := hwf b hb
    have : a.startTime ≤ b.startTime := hle
    omega

/-- Correctness of the sweeping loop: starting at `t` with an
end-before-start chain of well-formed blocks none of which ends before
`t`, any returned start is ≥ `t`, overlaps no listed block, and every
earlier time ≥ `t` overlaps some listed block. -/
theorem findLoop_spec (duration workingEnd : Int) (l : List ScheduleBlock) (t r : Int)
    (hchain : l.Pairwise (fun a b => a.endTime ≤ b.startTime))
    (hwf : ∀ b ∈ l, b.startTime < b.endTime)
    (hend : ∀ b ∈ l, t ≤ b.endTime)
    (hres : ConflictChecker.findLoop duration workingEnd t l = some r) :
    t ≤ r ∧ (∀ b ∈ l, ¬ overlapsBlock r duration b) ∧
      (∀ s, t ≤ s → s < r → ∃ b ∈ l, overlapsBlock s duration b) := by
  induction l generalizing t with
  | nil =>
    simp only [ConflictChecker.findLoop] at hres
    split_ifs at hres
    obtain rfl := Option.some.inj hres
    exact ⟨le_refl t, by simp, fun s h1 h2 => absurd h1 (by omega)⟩
  | cons b rest ih =>
    rw [List.pairwise_cons] at hchain
    simp only [ConflictChecker.findLoop] at hres
    split_ifs at hres with hfit
    · obtain rfl := Option.some.inj hres
      refine ⟨le_refl t, ?_, fun s h1 h2 => absurd h1 (by omega)⟩
      intro b' hb'
      rcases List.mem_cons.mp hb' with rfl | hb'
      · rintro ⟨-, h2⟩
        omega
      · have hc := hchain.1 b' hb'
        have hwb := hwf b' (List.mem_cons_of_mem _ hb')
        have hwb0 := hwf b (List.mem_cons_self b rest)
        rintro ⟨-, h2⟩
        omega
    · have hwf' : ∀ b' ∈ rest, b'.startTime < b'.endTime :=
        fun b' h => hwf b' (List.mem_cons_of_mem _ h)
      have hend' : ∀ b' ∈ rest, b.endTime ≤ b'.endTime := fun b' h =>
        le_trans (hchain.1 b' h) (le_of_lt (hwf' b' h))
      obtain ⟨h1, h2, h3⟩ := ih b.endTime hchain.2 hwf' hend' hres
      have htb : t ≤ b.endTime := hend b (List.mem_cons_self b rest)
      refine ⟨le_trans htb h1, ?_, ?_⟩
      · intro b' hb'
        rcases List.mem_cons.mp hb' with rfl | hb'
        · rintro ⟨hx, -⟩
          omega
        · exact h2 b' hb'
      · intro s hs1 hs2
        by_cases hcase : s < b.endTime
        · exact ⟨b, List.mem_cons_self b rest, hcase, by omega⟩
        · obtain ⟨b', hb', hov⟩ := h3 s (by omega) hs2
          exact ⟨b', List.mem_cons_of_mem _ hb', hov⟩

/-- C4 (amended): when the existing blocks are pairwise disjoint,
well-formed, and none ends before the clamped preferred start, any start
returned by `findNextAvailableSlot` is ≥ the clamped preferred start,
overlaps no existing block, and is the earliest such time: every earlier
time ≥ the clamped preferred start overlaps some block.  (Without those
hypotheses the sweep can jump back to the end of a block that lies before
the preferred start, and a mid-sweep return skips the working-hours end
check.) -/
theorem findNextAvailableSlot_earliest (duration preferredStart : Int)
    (existingBlocks : List ScheduleBlock) (workingStart workingEnd : Int) (r : Int)
    (hdisj : existingBlocks.Pairwise disjointBlocks)
    (hwf : ∀ b ∈ existingBlocks, b.startTime < b.endTime)
    (hlate : ∀ b ∈ existingBlocks,
      ConflictChecker.clampToWorkingStart preferredStart workingStart ≤ b.endTime)
    (hres : ConflictChecker.findNextAvailableSlot duration preferredStart existingBlocks
      workingStart workingEnd = some r) :
    ConflictChecker.clampToWorkingStart preferredStart workingStart ≤ r ∧
      (∀ b ∈ existingBlocks, ¬ overlapsBlock r duration b) ∧
      (∀ s, ConflictChecker.clampToWorkingStart preferredStart workingStart ≤ s → s < r →
        ∃ b ∈ existingBlocks, overlapsBlock s duration b) := by
  have hperm : List.Perm (List.insertionSort ConflictChecker.startLE existingBlocks) existingBlocks :=
    List.perm_insertionSort _ _
  have hsort := List.sorted_insertionSort ConflictChecker.startLE existingBlocks
  have hdisj' : (List.insertionSort ConflictChecker.startLE existingBlocks).Pairwise disjointBlocks :=
    (hperm.pairwise_iff (fun h => Or.symm h)).mpr hdisj
  have hwf' := fun b hb => hwf b (hperm.mem_iff.mp hb)
  have hend' := fun b hb => hlate b (hperm.mem_iff.mp hb)
  have hchain := sorted_disjoint_chain _ hsort hdisj' hwf'
  obtain ⟨h1, h2, h3⟩ := findLoop_spec duration workingEnd _ _ r hchain hwf' hend' hres
  refine ⟨h1, fun b hb => h2 b (hperm.mem_iff.mpr hb), fun s hs1 hs2 => ?_⟩
  obtain ⟨b, hb, hov⟩ := h3 s hs1 hs2
  exact ⟨b, hperm.mem_iff.mp hb, hov⟩

/-- C4 counterexample: with a 09:00–10:00 block lying entirely before the
preferred start 12:00 (working hours 8–18), the sweep advances to the
block's end and returns 10:00 — strictly earlier than the (unclamped,
here equal to clamped) preferred start, refuting "earliest feasible start
≥ the (possibly clamped) preferred start". -/
theorem findNextAvailableSlot_counterexample :
    ConflictChecker.findNextAvailableSlot 30 720 [earlyBlock] 8 18 = some 600 ∧
      ConflictChecker.clampToWorkingStart 720 8 = 720 ∧ (600 : Int) < 720 := by
  decide

/-- Witness for C4 (amended) at the spec's worked example:
`findNextAvailableSlot(30, 09:00, [{09:00–10:00}], {start:8,end:18})`
returns 10:00, which overlaps nothing. -/
theorem findNextAvailableSlot_earliest_witness :
    ConflictChecker.findNextAvailableSlot 30 540 [earlyBlock] 8 18 = some 600 ∧
      ¬ overlapsBlock 600 30 earlyBlock :=
  ⟨by decide,
    (findNextAvailableSlot_earliest 30 540 [earlyBlock] 8 18 600 (by decide)
      (by decide) (by decide) (by decide)).2.1 earlyBlock (List.mem_cons_self _ _)⟩

/-! ### The mutation coordinator (`src/hooks/useScheduleBlocks.ts`)

The hook's asynchronous flows are embedded as pure state transformers:
each operation is split at its `await` point, with the network outcome
passed in as an `Except` value.  Abort controllers are identified by the
order in which they are created. -/

/-- The pieces of React state and refs owned by `useScheduleBlocks` that
the fetch path touches: `blocks`, `isLoading`, `error`,
`currentWeekRef`, `abortControllerRef` plus the identities of already
aborted controllers and a counter for fresh ones. -/
structure FetchState where
  blocks : List ScheduleBlock
  isLoading : Bool
  error : Option String
  currentWeek : Int
  currentController : Option Nat
  abortedControllers : List Nat
  nextController : Nat
  deriving Repr, DecidableEq

/-- `fetchBlocks` up to its `await`: abort the previously installed
controller (if any), install a fresh one, set the loading flag and clear
the error.  Returns the new state together with the identity of the
controller guarding this fetch. -/
def issueFetch (s : FetchState) : FetchState × Nat :=
  (⟨s.blocks, true, none, s.currentWeek, some s.nextController,
    (match s.currentController with
     | some c => c :: s.abortedControllers
     | none => s.abortedControllers),
    s.nextController + 1⟩, s.nextController)

/-- `fetchBlocks` from its `await` on: if this fetch's controller has been
aborted nothing is applied; otherwise a successful response replaces the
collection and records the week, a failure records the error message; in
both live cases the `finally` clears the loading flag. -/
def resolveFetch (s : FetchState) (controller : Nat) (targetDate : Int)
    (result : Except String (List ScheduleBlock)) : FetchState :=
  if controller ∈ s.abortedControllers then s
  else
    match result with
    | .ok fetched => { s with blocks := fetched, currentWeek := targetDate, isLoading := false }
    | .error e => { s with error := some e, isLoading := false }

/-- Controllers recorded in a `FetchState` were all created before the
next fresh identity. -/
def FetchState.WF (s : FetchState) : Prop :=
  (∀ c ∈ s.abortedControllers, c < s.nextController) ∧
    (∀ c, s.currentController = some c → c < s.nextController)

/-- `UpdateBlockData` (src/lib/types.ts): `Partial<BlockFormData>`; a
`some` field is one present in the partial object. -/
structure UpdateBlockData where
  title : Option String
  description : Option String
  startTime : Option Int
  endTime : Option Int
  categoryId : Option String
  deriving Repr, DecidableEq

/-- The optimistic merge `{ ...block, ...data, updatedAt: new Date() }` of
`updateBlock`: fields present in `data` override, `updatedAt` is stamped
with the current instant, everything else is kept. -/
def mergeUpdateData (block : ScheduleBlock) (data : UpdateBlockData) (now : Int) : ScheduleBlock :=
  { block with
    title := data.title.getD block.title
    description := (match data.description with
      | some d => some d
      | none => block.description)
    startTime := data.startTime.getD block.startTime
    endTime := data.endTime.getD block.endTime
    categoryId := data.categoryId.getD block.categoryId
    updatedAt := now }

/-- Observable outcome of one run of `updateBlock`/`deleteBlock`: the final
collection, the `error` state, whether the persistence request was issued
(the code past the not-found guard was reached), and the message of the
exception the call rethrew, if any. -/
structure MutationRun where
  blocks : List ScheduleBlock
  error : Option String
  requested : Bool
  thrown : Option String
  deriving Repr, DecidableEq

/-- `updateBlock(id, data)` (src/hooks/useScheduleBlocks.ts) as a state
transformer: `setError(null)`; look up the entry (`find`), throwing
`"Bloque no encontrado"` before any request when absent; optimistically
merge `data` into the matching entries; then, depending on the response,
replace the matching entries with the server block, or roll every
matching entry back to the snapshot and record/rethrow the error. -/
def updateBlockRun (enableOptimisticUpdates : Bool) (blocks : List ScheduleBlock)
    (id : String) (data : UpdateBlockData) (now : Int)
    (apiResult : Except String ScheduleBlock) : MutationRun :=
  match blocks.find? (fun b => b.id == id) with
  | none => ⟨blocks, none, false, some "Bloque no encontrado"⟩
  | some originalBlock =>
    let afterOptimistic :=
      if enableOptimisticUpdates then
        blocks.map fun b => if b.id == id then mergeUpdateData b data now else b
      else blocks
    match apiResult with
    | .ok updatedBlock =>
        ⟨afterOptimistic.map fun b => if b.id == id then updatedBlock else b, none, true, none⟩
    | .error e =>
        ⟨(if enableOptimisticUpdates then
            afterOptimistic.map fun b => if b.id == id then originalBlock else b
          else afterOptimistic),
          some e, true, some e⟩

/-- `deleteBlock(id)` (src/hooks/useScheduleBlocks.ts) as a state
transformer: look up the entry, throwing `"Bloque no encontrado"` before
any request when absent; optimistically filter it out; on failure append
the snapshot back at the end and record/rethrow the error. -/
def deleteBlockRun (enableOptimisticUpdates : Bool) (blocks : List ScheduleBlock)
    (id : String) (apiResult : Except String Unit) : MutationRun :=
  match blocks.find? (fun b => b.id == id) with
  | none => ⟨blocks, none, false, some "Bloque no encontrado"⟩
  | some originalBlock =>
    let afterOptimistic :=
      if enableOptimisticUpdates then blocks.filter (fun b => !(b.id == id)) else blocks
    match apiResult with
    | .ok _ =>
        ⟨(if enableOptimisticUpdates then afterOptimistic
          else afterOptimistic.filter (fun b => !(b.id == id))),
          none, true, none⟩
    | .error e =>
        ⟨(if enableOptimisticUpdates then afterOptimistic ++ [originalBlock] else afterOptimistic),
          some e, true, some e⟩

/-- C3: if `fetchForWeek(weekA)` is issued and `fetchForWeek(weekB)` is
issued before weekA's response arrives, then whatever order the two
successful responses arrive in, weekA's result is never applied: the
collection ends up holding weekB's result. -/
theorem fetch_supersession (s0 s1 s2 : FetchState) (cA cB : Nat) (wA wB : Int)
    (rA rB : List ScheduleBlock) (hwf : s0.WF)
    (h1 : issueFetch s0 = (s1, cA)) (h2 : issueFetch s1 = (s2, cB)) :
    (resolveFetch (resolveFetch s2 cA wA (.ok rA)) cB wB (.ok rB)).blocks = rB ∧
      (resolveFetch (resolveFetch s2 cB wB (.ok rB)) cA wA (.ok rA)).blocks = rB := by
  obtain ⟨bs, il, er, cw, cc, ab, nc⟩ := s0
  simp only [FetchState.WF] at hwf
  obtain ⟨hwa, hwc⟩ := hwf
  cases cc with
  | none =>
    simp only [issueFetch] at h1
    obtain ⟨hs1, hcA⟩ := Prod.mk.inj h1
    subst hs1
    subst hcA
    simp only [issueFetch] at h2
    obtain ⟨hs2, hcB⟩ := Prod.mk.inj h2
    subst hs2
    subst hcB
    have hmemB : ¬ nc + 1 ∈ nc :: ab := by
      intro h
      rcases List.mem_cons.mp h with h | h
      · omega
      · exact absurd (hwa _ h) (by omega)
    constructor
    · simp only [resolveFetch]
      rw [if_pos (List.mem_cons_self _ _), if_neg hmemB]
    · simp only [resolveFetch]
      rw [if_neg hmemB, if_pos (List.mem_cons_self _ _)]
  | some c0 =>
    simp only [issueFetch] at h1
    obtain ⟨hs1, hcA⟩ := Prod.mk.inj h1
    subst hs1
    subst hcA
    simp only [issueFetch] at h2
    obtain ⟨hs2, hcB⟩ := Prod.mk.inj h2
    subst hs2
    subst hcB
    have hc0 : c0 < nc := hwc c0 rfl
    have hmemB : ¬ nc + 1 ∈ nc :: c0 :: ab := by
      intro h
      rcases List.mem_cons.mp h with h | h
      · omega
      · rcases List.mem_cons.mp h with h | h
        · omega
        · exact absurd (hwa _ h) (by omega)
    constructor
    · simp only [resolveFetch]
      rw [if_pos (List.mem_cons_self _ _), if_neg hmemB]
    · simp only [resolveFetch]
      rw [if_neg hmemB, if_pos (List.mem_cons_self _ _)]

/-- The concrete, empty `Partial<BlockFormData>` used by witnesses. -/
def emptyUpdateData : UpdateBlockData := ⟨none, none, none, none, none⟩

/-- Mapping a function that sends every entry with the looked-up id to
`orig` and fixes every other entry does not change what `find?` returns
when it was already returning the slot of `orig`. -/
theorem find?_id_map_restore (l : List ScheduleBlock) (id : String) (orig : ScheduleBlock)
    (f : ScheduleBlock → ScheduleBlock)
    (hf1 : ∀ b, b.id = id → f b = orig)
    (hf2 : ∀ b, ¬ b.id = id → f b = b)
    (h : l.find? (fun b => b.id == id) = some orig) :
    (l.map f).find? (fun b => b.id == id) = some orig := by
  induction l with
  | nil => simp at h
  | cons a rest ih =>
    rw [List.map_cons]
    by_cases ha : a.id = id
    · rw [List.find?_cons_of_pos rest (show (a.id == id) = true by simp [ha])] at h
      obtain rfl := Option.some.inj h
      rw [hf1 a ha]
      exact List.find?_cons_of_pos (List.map f rest) (show (a.id == id) = true by simp [ha])
    · rw [List.find?_cons_of_neg rest (show ¬ (a.id == id) = true by simp [ha])] at h
      rw [hf2 a ha, List.find?_cons_of_neg (List.map f rest)
        (show ¬ (a.id == id) = true by simp [ha])]
      exact ih h

/-- C5: if the persistence request of `updateBlock(id, data)` fails, the
collection entry for `id` afterwards is exactly the snapshot taken before
the call — the optimistic merge is fully reverted (and with optimistic
updates disabled the entry was never touched). -/
theorem updateBlock_rollback (enableOpt : Bool) (blocks : List ScheduleBlock) (id : String)
    (data : UpdateBlockData) (now : Int) (e : String) (originalBlock : ScheduleBlock)
    (hfind : blocks.find? (fun b => b.id == id) = some originalBlock) :
    (updateBlockRun enableOpt blocks id data now (.error e)).blocks.find?
      (fun b => b.id == id) = some originalBlock := by
  unfold updateBlockRun
  split
  · next heq => rw [hfind] at heq; cases heq
  · rename_i orig2 heq
    rw [hfind] at heq
    obtain rfl := Option.some.inj heq
    cases enableOpt with
    | false => simpa using hfind
    | true =>
      simp only [if_true]
      rw [List.map_map]
      refine find?_id_map_restore blocks id originalBlock _ ?_ ?_ hfind
      · intro b hb
        simp [Function.comp, hb, mergeUpdateData]
      · intro b hb
        simp [Function.comp, hb]

/-- Witness for C5: after a failed update of "Meeting", the entry is the
pre-call snapshot. -/
theorem updateBlock_rollback_witness :
    (updateBlockRun true [meetingBlock] "blk1" emptyUpdateData 99 (.error "fallo")).blocks.find?
      (fun b => b.id == "blk1") = some meetingBlock :=
  updateBlock_rollback true [meetingBlock] "blk1" emptyUpdateData 99 "fallo" meetingBlock
    (by decide)

/-- C9: when no block in the collection carries `id`, both
`updateBlock(id, data)` and `deleteBlock(id)` throw
"Bloque no encontrado" without issuing any persistence request and leave
the collection (and the error state) unchanged, whatever the network
would have answered. -/
theorem mutation_notFound (enableOpt : Bool) (blocks : List ScheduleBlock) (id : String)
    (data : UpdateBlockData) (now : Int) (apiU : Except String ScheduleBlock)
    (apiD : Except String Unit)
    (hfind : blocks.find? (fun b => b.id == id) = none) :
    updateBlockRun enableOpt blocks id data now apiU =
        ⟨blocks, none, false, some "Bloque no encontrado"⟩ ∧
      deleteBlockRun enableOpt blocks id apiD =
        ⟨blocks, none, false, some "Bloque no encontrado"⟩ := by
  constructor
  · unfold updateBlockRun
    split
    · rfl
    · next orig heq =>
      rw [hfind] at heq
      cases heq
  · unfold deleteBlockRun
    split
    · rfl
    · next orig heq =>
      rw [hfind] at heq
      cases heq

/-- Witness for C9: an unknown id fails fast and changes nothing. -/
theorem mutation_notFound_witness :
    updateBlockRun true [meetingBlock] "nope" emptyUpdateData 0 (.ok meetingBlock) =
        ⟨[meetingBlock], none, false, some "Bloque no encontrado"⟩ ∧
      deleteBlockRun true [meetingBlock] "nope" (.ok ()) =
        ⟨[meetingBlock], none, false, some "Bloque no encontrado"⟩ :=
  mutation_notFound true [meetingBlock] "nope" emptyUpdateData 0 (.ok meetingBlock) (.ok ())
    (by decide)

/-- Witness for C3: from an idle initial state, issuing a fetch for week A
then week B and resolving in either order leaves week B's result. -/
theorem fetch_supersession_witness :
    (resolveFetch (resolveFetch ⟨[], true, none, 0, some 1, [0], 2⟩ 0 0
          (.ok [earlyBlock])) 1 10080 (.ok [dayOneBlock])).blocks = [dayOneBlock] ∧
      (resolveFetch (resolveFetch ⟨[], true, none, 0, some 1, [0], 2⟩ 1 10080
          (.ok [dayOneBlock])) 0 0 (.ok [earlyBlock])).blocks = [dayOneBlock] :=
  fetch_supersession ⟨[], false, none, 0, none, [], 0⟩ ⟨[], true, none, 0, some 0, [], 1⟩
    ⟨[], true, none, 0, some 1, [0], 2⟩ 0 1 0 10080 [earlyBlock] [dayOneBlock]
    ⟨by simp, by simp⟩ rfl rfl

end Planico
